import Mathlib

/-!
Verification development for the S3-to-Postgres ETL job (`src/app/etl_job.py`).

Shallow embedding conventions:
* Timestamps are `Int` seconds (a `datetime` value; `timedelta(hours=24)` is
  `24 * 60 * 60` seconds).
* A pandas cell is an `RVal`: a numeric value, a string, or NaN (`na`).  A
  DataFrame records which columns are present (`has…` flags mirror membership
  in `df.columns`; accessing an absent column raises `KeyError`) together
  with the list of rows.
* `pd.to_numeric(errors .eq coerce)` is modelled on integers: numeric cells
  pass through, numeric strings parse via `String.toInt?`, everything else
  becomes NaN (`none`).
* The destination `transactions` table is the list of committed rows, in
  insertion order.  The `UNIQUE (terminal_id, transaction_datetime,
  operation, channel)` constraint together with `ON CONFLICT … DO UPDATE`
  is modelled by `upsertRow`: PostgreSQL unique constraints treat NULLs as
  distinct, so a row whose `terminal_id` is NULL never conflicts with any
  row, which the model expresses with `Option.isSome` in `conflict`.
* Not every transformed record can actually be inserted.  A non-numeric
  `terminal_id` cell is left as pandas float NaN; psycopg2's float adapter
  renders it as the literal NaN cast to float8 (never as SQL NULL), and
  PostgreSQL rejects that value for the INTEGER column, so the whole batch
  raises.  Likewise `fillna` leaves a numeric dimension cell numeric, and
  PostgreSQL has no assignment cast from integer to varchar, so such a
  record also makes the INSERT raise.  `TRow.dims_numeric` records the
  latter condition, `adaptable` captures both, and
  `load_data_to_postgres` treats a batch containing an unadaptable record
  exactly like any other database failure: nothing is committed and the
  connection's transaction is aborted.  In particular the pipeline can
  never store a row with NULL `terminal_id`.
* psycopg2 runs with autocommit off and the code never calls `rollback()`:
  once a statement fails, the connection's transaction is aborted and every
  later statement on it raises `InFailedSqlTransaction`.  The `aborted`
  flag of `St` models this connection state; an uncommitted batch of an
  aborted transaction never reaches the table.
* The environment `Env` carries the run's outside collaborators: the S3
  listing response (`store`, where `none` models a response without a
  `Contents` key), the per-key download/parse outcome (`parse`), and an
  injected database failure during one file's `execute_batch` (`loadFault`).
-/

namespace KasnetETL

deriving instance DecidableEq for Except

/-- A raw pandas cell: numeric, string, or missing (NaN). -/
inductive RVal where
  | num (n : Int)
  | str (s : String)
  | na
deriving DecidableEq, Repr

/-- One raw CSV row (cell values of the columns the ETL reads). -/
structure RawRow where
  year : RVal
  month : RVal
  day : RVal
  hour : RVal
  operation : RVal
  channel : RVal
  entity : RVal
  terminal_id : RVal
  cant_trx : RVal
  transaction_amount : RVal
deriving DecidableEq, Repr

/-- A parsed DataFrame: which columns are present, plus the rows. -/
structure RawDF where
  hasYear : Bool
  hasMonth : Bool
  hasDay : Bool
  hasHour : Bool
  hasOperation : Bool
  hasChannel : Bool
  hasEntity : Bool
  hasTerminalId : Bool
  hasCantTrx : Bool
  hasAmount : Bool
  rows : List RawRow
deriving DecidableEq, Repr

/-- A composed `transaction_datetime` (the result of
`pd.to_datetime(df[[year, month, day, hour]])`). -/
structure DT where
  year : Int
  month : Int
  day : Int
  hour : Int
deriving DecidableEq, Repr

/-- One transformed record (output row of `transform_data`).  The three
dimension fields carry the rendered string value; `dims_numeric` records
whether any of the three cells was numeric after `fillna` — such a cell
keeps its numeric type in the frame and makes the later INSERT into the
varchar column raise, so its rendering never reaches the table. -/
structure TRow where
  terminal_id : Option Int
  operation : String
  channel : String
  entity : String
  year : Int
  month : Int
  day : Int
  hour : Int
  cant_trx : Int
  transaction_amount : Int
  transaction_datetime : DT
  transaction_date : Int × Int × Int
  dims_numeric : Bool
deriving DecidableEq, Repr

/-- One committed row of the destination `transactions` table. -/
structure DBRow where
  terminal_id : Option Int
  operation : String
  channel : String
  entity : String
  year : Int
  month : Int
  day : Int
  hour : Int
  cant_trx : Int
  transaction_amount : Int
  transaction_datetime : DT
  transaction_date : Int × Int × Int
  source_file : String
  loaded_at : Int
deriving DecidableEq, Repr

/-- The natural key of the unique constraint:
`(terminal_id, transaction_datetime, operation, channel)`. -/
abbrev NatKey := Option Int × DT × String × String

/-- Natural key of a table row. -/
def DBRow.key (r : DBRow) : NatKey :=
  (r.terminal_id, r.transaction_datetime, r.operation, r.channel)

/-- Natural key of a transformed record. -/
def trKey (tr : TRow) : NatKey :=
  (tr.terminal_id, tr.transaction_datetime, tr.operation, tr.channel)

/-- Stamping a transformed record with provenance and load time, as
`load_data_to_postgres` does before insertion (`source_file` column set
from the argument; `loaded_at` from `CURRENT_TIMESTAMP`). -/
def toDBRow (tr : TRow) (source_file : String) (t : Int) : DBRow :=
  ⟨tr.terminal_id, tr.operation, tr.channel, tr.entity, tr.year, tr.month,
    tr.day, tr.hour, tr.cant_trx, tr.transaction_amount,
    tr.transaction_datetime, tr.transaction_date, source_file, t⟩

/-- An S3 object as reported by `list_objects_v2` (key, LastModified, Size). -/
structure SObj where
  key : String
  lastModified : Int
  size : Int
deriving DecidableEq, Repr

/-- An entry of the list returned by `list_new_files`. -/
structure SFile where
  key : String
  last_modified : Int
  size : Int
deriving DecidableEq, Repr

/-- One row of the `etl_metadata` table. -/
structure MetaRow where
  last_sync_time : Int
  status : String
  files_processed : Nat
  created_at : Int
deriving DecidableEq, Repr

/-- The durable database state plus the psycopg2 connection's
transaction-aborted flag. -/
structure St where
  transactions : List DBRow
  metadata : List MetaRow
  aborted : Bool
deriving DecidableEq, Repr

/-- Outside collaborators of one run. -/
structure Env where
  /-- clock at listing time (`datetime.now()` for the default lookback). -/
  now : Int
  /-- `CURRENT_TIMESTAMP` when the metadata row is inserted. -/
  recordTime : Int
  /-- S3 listing outcome; `Except.error` models a failed call, `.ok none`
  models a response without a `Contents` key. -/
  store : Except Unit (Option (List SObj))
  /-- `download_and_parse_csv` outcome per key. -/
  parse : String → Except Unit RawDF
  /-- injected database failure during this file's `execute_batch`. -/
  loadFault : String → Bool

/-! ## Source functions -/

/-- Gregorian leap year. -/
def isLeap (y : Int) : Bool :=
  (y % 4 == 0 && y % 100 != 0) || y % 400 == 0

/-- Days in a month. -/
def daysInMonth (y m : Int) : Int :=
  if m == 2 then (if isLeap y then 29 else 28)
  else if m == 4 || m == 6 || m == 9 || m == 11 then 30
  else 31

/-- Validity of a year/month/day/hour combination, as enforced by
`pd.to_datetime` (an invalid combination such as day 32 raises). -/
def okDate (y m d h : Int) : Bool :=
  1 ≤ m && m ≤ 12 && 1 ≤ d && d ≤ daysInMonth y m && 0 ≤ h && h ≤ 23

/-- Composing one row's datetime; non-numeric or out-of-range parts make
`pd.to_datetime` raise for the whole frame. -/
def composeDT (r : RawRow) : Except Unit DT :=
  match r.year, r.month, r.day, r.hour with
  | .num y, .num m, .num d, .num h =>
      if okDate y m d h then .ok ⟨y, m, d, h⟩ else .error ()
  | _, _, _, _ => .error ()

/-- Composing the datetime column for every row (first failure aborts, as
the vectorised `pd.to_datetime` raises for the whole frame). -/
def composeAll : List RawRow → Except Unit (List (RawRow × DT))
  | [] => .ok []
  | r :: rs =>
    match composeDT r with
    | .error e => .error e
    | .ok dt =>
      match composeAll rs with
      | .error e => .error e
      | .ok rest => .ok ((r, dt) :: rest)

/-- `fillna('Unknown')` on a dimension cell, rendered as a string: NaN
becomes the literal `"Unknown"`, a string cell is unchanged.  A numeric
cell stays numeric in the real frame; its rendering here is immaterial,
because `TRow.dims_numeric` marks the record and the load refuses it
(PostgreSQL has no assignment cast from integer to varchar), so the
rendered value of a numeric cell is never committed. -/
def strOrUnknown : RVal → String
  | .na => "Unknown"
  | .str s => s
  | .num n => toString n

/-- Whether a cell is numeric (and would therefore keep its numeric type
through `fillna`). -/
def isNumCell : RVal → Bool
  | .num _ => true
  | _ => false

/-- `pd.to_numeric(errors .eq coerce)` on one cell, modelled on integers. -/
def toNum? : RVal → Option Int
  | .num n => some n
  | .str s => s.toInt?
  | .na => none

/-- The schema check of `transform_data` line 106:
`{year, month, day, hour}.issubset(df.columns)`. -/
def hasDateCols (df : RawDF) : Bool :=
  df.hasYear && df.hasMonth && df.hasDay && df.hasHour

/-- Errors `transform_data` can raise. -/
inductive TError where
  /-- `ValueError("CSV missing required date columns: year, month, day, hour")`. -/
  | missingDateColumns
  /-- `pd.to_datetime` failure on bad date values. -/
  | invalidDatetime
  /-- pandas `KeyError` from accessing an absent column. -/
  | keyError (column : String)
deriving DecidableEq, Repr

/-- Building one transformed record once every column access succeeded. -/
def mkTRow (r : RawRow) (dt : DT) : TRow :=
  ⟨toNum? r.terminal_id, strOrUnknown r.operation, strOrUnknown r.channel,
    strOrUnknown r.entity, dt.year, dt.month, dt.day, dt.hour,
    (toNum? r.cant_trx).getD 0, (toNum? r.transaction_amount).getD 0,
    dt, (dt.year, dt.month, dt.day),
    isNumCell r.operation || isNumCell r.channel || isNumCell r.entity⟩

/-- `transform_data` (etl_job.py lines 103-126): date-column schema check,
datetime composition, then the column accesses of lines 117-124 in source
order — each raises `KeyError` when its column is absent, otherwise fills
missing dimensions with `"Unknown"` and coerces the numeric columns. -/
def transform_data (df : RawDF) : Except TError (List TRow) :=
  if hasDateCols df then
    match composeAll df.rows with
    | .error _ => .error .invalidDatetime
    | .ok paired =>
      if df.hasOperation then
        if df.hasChannel then
          if df.hasEntity then
            if df.hasTerminalId then
              if df.hasCantTrx then
                if df.hasAmount then
                  .ok (paired.map (fun p => mkTRow p.1 p.2))
                else .error (.keyError "transaction_amount")
              else .error (.keyError "cant_trx")
            else .error (.keyError "terminal_id")
          else .error (.keyError "entity")
        else .error (.keyError "channel")
      else .error (.keyError "operation")
  else .error .missingDateColumns

/-- Whether an incoming row `n` conflicts with a table row `r` on the
unique constraint.  PostgreSQL unique constraints treat NULLs as distinct,
so a NULL `terminal_id` never conflicts. -/
def conflict (n r : DBRow) : Bool :=
  n.terminal_id.isSome && decide (n.key = r.key)

/-- The `DO UPDATE SET` clause: overwrite `cant_trx`, `transaction_amount`,
`entity`, `source_file`, `loaded_at`; every other column is untouched. -/
def mutUpdate (r n : DBRow) : DBRow :=
  { r with cant_trx := n.cant_trx, transaction_amount := n.transaction_amount,
           entity := n.entity, source_file := n.source_file,
           loaded_at := n.loaded_at }

/-- One `INSERT … ON CONFLICT … DO UPDATE` statement against the table. -/
def upsertRow (T : List DBRow) (n : DBRow) : List DBRow :=
  if T.any (fun r => conflict n r) then
    T.map (fun r => if conflict n r then mutUpdate r n else r)
  else T ++ [n]

/-- The `execute_batch` loop: the statements run sequentially, so later
records of the same batch see the effect of earlier ones. -/
def upsertAll (rows : List DBRow) (T : List DBRow) : List DBRow :=
  rows.foldl upsertRow T

/-- The `df['source_file'] = source_file` stamping applied to a whole
transformed batch, with the shared load timestamp. -/
def stampAll (rows : List TRow) (source_file : String) (t : Int) : List DBRow :=
  rows.map (fun tr => toDBRow tr source_file t)

/-- Whether a transformed record can actually be inserted: a record with
a NaN `terminal_id` is adapted by psycopg2 as the literal NaN cast to
float8 and rejected by the INTEGER column, and a record with a numeric
dimension cell is rejected by the varchar column; either way
`execute_batch` raises for the whole batch. -/
def adaptable (tr : TRow) : Bool :=
  tr.terminal_id.isSome && !tr.dims_numeric

/-- `load_data_to_postgres` (etl_job.py lines 165-196).  `fault` injects a
database failure during `execute_batch`; a batch containing an
unadaptable record fails the same way on its own.  With autocommit off
and no `rollback()` in the code, a failure leaves the connection's
transaction aborted, and a statement on an already-aborted connection
raises immediately.  Returns the new state and whether the call
succeeded. -/
def load_data_to_postgres (rows : List TRow) (source_file : String) (t : Int)
    (fault : Bool) (st : St) : St × Bool :=
  if st.aborted then (st, false)
  else if fault || !rows.all adaptable then ({ st with aborted := true }, false)
  else ({ st with transactions := upsertAll (stampAll rows source_file t) st.transactions }, true)

/-- `get_last_sync_time` (etl_job.py lines 198-222): the `last_sync_time`
of the most recent `etl_metadata` row with status `'success'`.
`created_at` is nondecreasing in insertion order, so `ORDER BY created_at
DESC LIMIT 1` is the last matching row of the append-only list. -/
def get_last_sync_time (st : St) : Option Int :=
  ((st.metadata.filter (fun m => decide (m.status = "success"))).getLast?).map
    (fun m => m.last_sync_time)

/-- `update_sync_metadata` (etl_job.py lines 224-231): append one row with
`last_sync_time = CURRENT_TIMESTAMP`.  The Python default for `status` is
`'success'` and `run` never passes another value.  On an aborted
connection the `INSERT` raises. -/
def update_sync_metadata (st : St) (files_processed : Nat) (t : Int)
    (status : String) : Except Unit St :=
  if st.aborted then .error ()
  else .ok { st with metadata := st.metadata ++ [⟨t, status, files_processed, t⟩] }

/-- The `obj['Key'].endswith('.csv')` filter, modelled structurally over
the character list (Lean's own `String.endsWith` is defined by
well-founded recursion, which a kernel witness cannot evaluate). -/
def endsWithCsv (s : String) : Bool := List.isSuffixOf ".csv".data s.data

/-- `list_new_files` (etl_job.py lines 51-86): default the watermark to 24
hours before now, propagate a listing failure, return `[]` when the
response has no `Contents`, and otherwise keep objects whose key ends with
`.csv` and whose LastModified is strictly after the watermark. -/
def list_new_files (now : Int) (resp : Except Unit (Option (List SObj)))
    (last_sync_time : Option Int) : Except Unit (List SFile) :=
  let lst := last_sync_time.getD (now - 24 * 60 * 60)
  match resp with
  | .error e => .error e
  | .ok none => .ok []
  | .ok (some contents) =>
    .ok (contents.foldl
      (fun acc obj =>
        if endsWithCsv obj.key && decide (lst < obj.lastModified) then
          acc ++ [⟨obj.key, obj.lastModified, obj.size⟩]
        else acc) [])

/-- The parse-plus-transform outcome for one file: `some rows` when both
steps succeed, `none` when either raises. -/
def fileOutcome (env : Env) (key : String) : Option (List TRow) :=
  match env.parse key with
  | .error _ => none
  | .ok df => (transform_data df).toOption

/-- One iteration of the per-file loop of `run` (etl_job.py lines
258-273): download and parse, transform, load; any exception is caught at
this boundary.  Returns the new state and whether the file counted as
processed. -/
def processFile (env : Env) (st : St) (key : String) : St × Bool :=
  match env.parse key with
  | .error _ => (st, false)
  | .ok df =>
    match transform_data df with
    | .error _ => (st, false)
    | .ok rows => load_data_to_postgres rows key env.now (env.loadFault key) st

/-- The whole per-file loop with the `files_processed` counter. -/
def processAll (env : Env) : List SFile → St × Nat → St × Nat
  | [], acc => acc
  | f :: fs, acc =>
    let p := processFile env acc.1 f.key
    processAll env fs (p.1, if p.2 then acc.2 + 1 else acc.2)

/-- `run` (etl_job.py lines 233-284): read the watermark, list new files,
return early when the list is empty, loop over the files catching
per-file errors, then record the metadata row; an exception escaping the
loop (a failed listing, or the metadata insert on an aborted connection)
propagates to the caller as `Except.error`. -/
def run (env : Env) (st : St) : St × Except Unit Unit :=
  match list_new_files env.now env.store (get_last_sync_time st) with
  | .error _ => (st, .error ())
  | .ok files =>
    if files = [] then (st, .ok ())
    else
      let p := processAll env files (st, 0)
      match update_sync_metadata p.1 p.2 env.recordTime "success" with
      | .error _ => (p.1, .error ())
      | .ok st2 => (st2, .ok ())

/-! ## Derived notions about the destination table -/

/-- Number of table rows sharing the natural key `k`. -/
def keyCount (k : NatKey) (T : List DBRow) : Nat :=
  T.countP (fun r => decide (r.key = k))

/-- The invariant the `UNIQUE` constraint enforces: at most one row per
non-NULL natural key (NULL `terminal_id` keys are exempt, since the
constraint treats NULLs as distinct). -/
def KeyUnique (T : List DBRow) : Prop :=
  ∀ k : NatKey, k.1.isSome = true → keyCount k T ≤ 1

/-- The mutable fields of a row: the ones the `DO UPDATE SET` clause
overwrites. -/
def mutOf (r : DBRow) : Int × Int × String × String × Int :=
  (r.cant_trx, r.transaction_amount, r.entity, r.source_file, r.loaded_at)

lemma key_mutUpdate (r n : DBRow) : (mutUpdate r n).key = r.key := rfl

lemma mutOf_mutUpdate (r n : DBRow) : mutOf (mutUpdate r n) = mutOf n := rfl

lemma key_toDBRow (tr : TRow) (f : String) (t : Int) :
    (toDBRow tr f t).key = trKey tr := rfl

lemma mutOf_toDBRow (tr : TRow) (f : String) (t : Int) :
    mutOf (toDBRow tr f t) =
      (tr.cant_trx, tr.transaction_amount, tr.entity, f, t) := rfl

lemma conflict_iff {n r : DBRow} :
    conflict n r = true ↔ n.terminal_id.isSome = true ∧ n.key = r.key := by
  simp [conflict]

lemma keyCount_nil (k : NatKey) : keyCount k [] = 0 := rfl

lemma keyCount_append (k : NatKey) (T1 T2 : List DBRow) :
    keyCount k (T1 ++ T2) = keyCount k T1 + keyCount k T2 :=
  List.countP_append _ _ _

lemma keyCount_map_of_key_eq (k : NatKey) (g : DBRow → DBRow)
    (h : ∀ r, (g r).key = r.key) (T : List DBRow) :
    keyCount k (T.map g) = keyCount k T := by
  induction T with
  | nil => rfl
  | cons a T ih =>
    simp only [List.map_cons, keyCount, List.countP_cons] at *
    rw [ih, h a]

lemma keyCount_pos_iff (k : NatKey) (T : List DBRow) :
    1 ≤ keyCount k T ↔ ∃ r ∈ T, r.key = k := by
  unfold keyCount
  rw [Nat.succ_le_iff, List.countP_pos_iff]
  simp

/-! ## Upsert lemmas -/

lemma key_ite_mutUpdate (n r : DBRow) :
    (if conflict n r = true then mutUpdate r n else r).key = r.key := by
  split <;> rfl

lemma keyCount_upsertRow (T : List DBRow) (n : DBRow) (k : NatKey) :
    keyCount k (upsertRow T n) =
      if T.any (fun r => conflict n r) then keyCount k T
      else keyCount k T + (if n.key = k then 1 else 0) := by
  unfold upsertRow
  split
  · exact keyCount_map_of_key_eq k _ (fun r => key_ite_mutUpdate n r) T
  · rw [keyCount_append]
    congr 1
    simp only [keyCount, List.countP_cons, List.countP_nil]
    split <;> simp_all

lemma keyCount_le_upsertRow (T : List DBRow) (n : DBRow) (k : NatKey) :
    keyCount k T ≤ keyCount k (upsertRow T n) := by
  rw [keyCount_upsertRow]
  split
  · exact Nat.le_refl _
  · exact Nat.le_add_right _ _

lemma keyCount_upsertRow_self (T : List DBRow) (n : DBRow) :
    1 ≤ keyCount n.key (upsertRow T n) := by
  rw [keyCount_upsertRow]
  split
  · next h =>
    rw [List.any_eq_true] at h
    obtain ⟨r, hr, hc⟩ := h
    exact (keyCount_pos_iff _ _).2 ⟨r, hr, ((conflict_iff).1 hc).2.symm⟩
  · simp

lemma keyUnique_upsertRow {T : List DBRow} (hT : KeyUnique T) (n : DBRow) :
    KeyUnique (upsertRow T n) := by
  intro k hk
  rw [keyCount_upsertRow]
  split
  · exact hT k hk
  · next hany =>
    split
    · next hkey =>
      have h0 : keyCount k T = 0 := by
        by_contra h
        obtain ⟨r, hr, hrk⟩ :=
          (keyCount_pos_iff k T).1 (Nat.one_le_iff_ne_zero.2 h)
        have : conflict n r = true := by
          rw [conflict_iff]
          subst hkey
          exact ⟨by simpa using hk, hrk.symm⟩
        exact (by simpa using hany : ∀ r ∈ T, ¬conflict n r = true) r hr this
      omega
    · simpa using hT k hk

lemma mutOf_upsertRow_self {T : List DBRow} {n : DBRow}
    (hs : n.terminal_id.isSome = true) :
    ∀ r ∈ upsertRow T n, r.key = n.key → mutOf r = mutOf n := by
  intro r hr hk
  unfold upsertRow at hr
  split at hr
  · next hany =>
    rw [List.mem_map] at hr
    obtain ⟨r0, hr0, hr0e⟩ := hr
    by_cases hc : conflict n r0 = true
    · rw [if_pos hc] at hr0e
      rw [← hr0e]
      exact mutOf_mutUpdate r0 n
    · rw [if_neg hc] at hr0e
      subst hr0e
      exact absurd ((conflict_iff).2 ⟨hs, hk.symm⟩) hc
  · next hany =>
    rw [List.mem_append] at hr
    rcases hr with hr | hr
    · have hall : ∀ x ∈ T, ¬conflict n x = true := by simpa using hany
      exact absurd ((conflict_iff).2 ⟨hs, hk.symm⟩) (hall r hr)
    · simp only [List.mem_singleton] at hr
      subst hr
      rfl

lemma filter_key_map_mutUpdate {n : DBRow} {k : NatKey} (hk : n.key ≠ k)
    (T : List DBRow) :
    List.filter (fun r => decide (r.key = k))
        (T.map (fun r => if conflict n r = true then mutUpdate r n else r)) =
      List.filter (fun r => decide (r.key = k)) T := by
  induction T with
  | nil => rfl
  | cons a T ih =>
    simp only [List.map_cons]
    by_cases hc : conflict n a = true
    · have hka : ¬a.key = k := fun h => hk (((conflict_iff).1 hc).2.trans h)
      have hka' : ¬(mutUpdate a n).key = k := by rw [key_mutUpdate]; exact hka
      rw [if_pos hc, List.filter_cons, List.filter_cons,
        if_neg (by simpa using hka'), if_neg (by simpa using hka), ih]
    · rw [if_neg hc, List.filter_cons, List.filter_cons, ih]

lemma filter_key_upsertRow {T : List DBRow} {n : DBRow} {k : NatKey}
    (hk : n.key ≠ k) :
    (upsertRow T n).filter (fun r => decide (r.key = k)) =
      T.filter (fun r => decide (r.key = k)) := by
  unfold upsertRow
  split
  · exact filter_key_map_mutUpdate hk T
  · rw [List.filter_append]
    have : List.filter (fun r => decide (r.key = k)) [n] = [] := by
      simp [hk]
    rw [this, List.append_nil]

/-! ## Batch (`upsertAll`) lemmas -/

lemma upsertAll_nil (T : List DBRow) : upsertAll [] T = T := rfl

lemma upsertAll_cons (a : DBRow) (rows T : List DBRow) :
    upsertAll (a :: rows) T = upsertAll rows (upsertRow T a) := rfl

lemma keyCount_le_upsertAll (rows : List DBRow) (T : List DBRow) (k : NatKey) :
    keyCount k T ≤ keyCount k (upsertAll rows T) := by
  induction rows generalizing T with
  | nil => exact Nat.le_refl _
  | cons a rows ih =>
    rw [upsertAll_cons]
    exact Nat.le_trans (keyCount_le_upsertRow T a k) (ih (upsertRow T a))

lemma keyUnique_upsertAll (rows : List DBRow) {T : List DBRow}
    (hT : KeyUnique T) : KeyUnique (upsertAll rows T) := by
  induction rows generalizing T with
  | nil => exact hT
  | cons a rows ih => exact ih (keyUnique_upsertRow hT a)

lemma keyCount_upsertAll_mem (rows : List DBRow) (T : List DBRow) :
    ∀ n ∈ rows, 1 ≤ keyCount n.key (upsertAll rows T) := by
  induction rows generalizing T with
  | nil => intro n hn; cases hn
  | cons a rows ih =>
    intro n hn
    rw [List.mem_cons] at hn
    rw [upsertAll_cons]
    rcases hn with rfl | hn
    · exact Nat.le_trans (keyCount_upsertRow_self T n)
        (keyCount_le_upsertAll rows (upsertRow T n) n.key)
    · exact ih (upsertRow T a) n hn

lemma keyCount_upsertAll_eq_one (rows : List DBRow) {T : List DBRow}
    (hT : KeyUnique T) {n : DBRow} (hn : n ∈ rows)
    (hs : n.terminal_id.isSome = true) :
    keyCount n.key (upsertAll rows T) = 1 :=
  Nat.le_antisymm
    (keyUnique_upsertAll rows hT n.key (by simpa [DBRow.key] using hs))
    (keyCount_upsertAll_mem rows T n hn)

lemma filter_key_upsertAll {rows : List DBRow} {k : NatKey}
    (h : ∀ n ∈ rows, n.key ≠ k) (T : List DBRow) :
    (upsertAll rows T).filter (fun r => decide (r.key = k)) =
      T.filter (fun r => decide (r.key = k)) := by
  induction rows generalizing T with
  | nil => rfl
  | cons a rows ih =>
    rw [upsertAll_cons,
      ih (fun n hn => h n (List.mem_cons_of_mem a hn)) (upsertRow T a),
      filter_key_upsertRow (h a (List.mem_cons_self a rows))]

/-- The mutable fields of every surviving row at key `k` come from the
last batch record with that key. -/
lemma mutOf_upsertAll (rows : List DBRow) {T : List DBRow} {k : NatKey}
    {n : DBRow} (hall : ∀ m ∈ rows, m.terminal_id.isSome = true)
    (hlast : (rows.filter (fun m => decide (m.key = k))).getLast? = some n) :
    ∀ r ∈ upsertAll rows T, r.key = k → mutOf r = mutOf n := by
  induction rows generalizing T with
  | nil => cases hlast
  | cons a rows ih =>
    have hall' : ∀ m ∈ rows, m.terminal_id.isSome = true :=
      fun m hm => hall m (List.mem_cons_of_mem a hm)
    by_cases hak : a.key = k
    · have hstep : (a :: rows).filter (fun m => decide (m.key = k)) =
          a :: rows.filter (fun m => decide (m.key = k)) := by
        rw [List.filter_cons, if_pos (by simpa using hak)]
      rw [hstep] at hlast
      cases hfr : rows.filter (fun m => decide (m.key = k)) with
      | nil =>
        rw [hfr] at hlast
        have hna : n = a := by
          simpa using hlast.symm
        intro r hr hrk
        rw [upsertAll_cons] at hr
        have hnone : ∀ m ∈ rows, m.key ≠ k := by
          intro m hm
          have := List.filter_eq_nil_iff.1 hfr m hm
          simpa using this
        have hrmem : r ∈ (upsertAll rows (upsertRow T a)).filter
            (fun r => decide (r.key = k)) :=
          List.mem_filter.2 ⟨hr, by simpa using hrk⟩
        rw [filter_key_upsertAll hnone (upsertRow T a)] at hrmem
        obtain ⟨hrT, hrk'⟩ := List.mem_filter.1 hrmem
        rw [hna]
        exact mutOf_upsertRow_self (hall a (List.mem_cons_self a rows)) r hrT
          (hrk.trans hak.symm)
      | cons b l =>
        rw [hfr, List.getLast?_cons_cons] at hlast
        intro r hr hrk
        rw [upsertAll_cons] at hr
        exact ih hall' (by rw [hfr]; exact hlast) r hr hrk
    · have hstep : (a :: rows).filter (fun m => decide (m.key = k)) =
          rows.filter (fun m => decide (m.key = k)) := by
        rw [List.filter_cons, if_neg (by simpa using hak)]
      rw [hstep] at hlast
      intro r hr hrk
      rw [upsertAll_cons] at hr
      exact ih hall' hlast r hr hrk

/-! ## Stamped-batch lemmas -/

lemma stampAll_filter_key (trows : List TRow) (f : String) (t : Int)
    (k : NatKey) :
    (stampAll trows f t).filter (fun r => decide (r.key = k)) =
      stampAll (trows.filter (fun tr => decide (trKey tr = k))) f t := by
  induction trows with
  | nil => rfl
  | cons a l ih =>
    simp only [stampAll, List.map_cons] at ih ⊢
    by_cases hak : trKey a = k
    · rw [List.filter_cons, List.filter_cons,
        if_pos (show decide ((toDBRow a f t).key = k) = true by
          rw [key_toDBRow]; exact decide_eq_true hak),
        if_pos (decide_eq_true hak), List.map_cons, ih]
    · rw [List.filter_cons, List.filter_cons,
        if_neg (show ¬decide ((toDBRow a f t).key = k) = true by
          rw [key_toDBRow]; simpa using hak),
        if_neg (by simpa using hak), ih]

lemma getLast?_map_eq {α β : Type} (f : α → β) (l : List α) :
    (l.map f).getLast? = l.getLast?.map f := by
  induction l with
  | nil => rfl
  | cons a l ih =>
    cases l with
    | nil => rfl
    | cons b l' =>
      rw [List.map_cons, List.map_cons, List.getLast?_cons_cons,
        List.getLast?_cons_cons, ← List.map_cons f b l', ih]

lemma stampAll_terminal_isSome {trows : List TRow} {f : String} {t : Int}
    (h : ∀ tr ∈ trows, tr.terminal_id.isSome = true) :
    ∀ m ∈ stampAll trows f t, m.terminal_id.isSome = true := by
  intro m hm
  obtain ⟨tr, htr, rfl⟩ := List.mem_map.1 hm
  exact h tr htr


/-! ## Run-level lemmas -/

/-- The state after one file's batch committed. -/
def loadedSt (st : St) (rows : List TRow) (key : String) (t : Int) : St :=
  { st with transactions := upsertAll (stampAll rows key t) st.transactions }

lemma load_metadata (rows : List TRow) (f : String) (t : Int) (fault : Bool)
    (st : St) :
    (load_data_to_postgres rows f t fault st).1.metadata = st.metadata := by
  unfold load_data_to_postgres
  split_ifs <;> rfl

lemma processFile_metadata (env : Env) (st : St) (key : String) :
    (processFile env st key).1.metadata = st.metadata := by
  cases hp : env.parse key with
  | error e => simp [processFile, hp]
  | ok df =>
    cases ht : transform_data df with
    | error e => simp [processFile, hp, ht]
    | ok rows =>
      simp only [processFile, hp, ht]
      exact load_metadata rows key env.now (env.loadFault key) st

lemma processFile_eq_none (env : Env) (st : St) (key : String)
    (hfo : fileOutcome env key = none) :
    processFile env st key = (st, false) := by
  cases hp : env.parse key with
  | error e => simp [processFile, hp]
  | ok df =>
    cases ht : transform_data df with
    | error e => simp [processFile, hp, ht]
    | ok rows => simp [fileOutcome, hp, ht, Except.toOption] at hfo

lemma processFile_eq_some (env : Env) (st : St) (key : String)
    (rows : List TRow) (hab : st.aborted = false)
    (hnf : env.loadFault key = false)
    (hfo : fileOutcome env key = some rows)
    (hadapt : rows.all adaptable = true) :
    processFile env st key = (loadedSt st rows key env.now, true) := by
  cases hp : env.parse key with
  | error e => simp [fileOutcome, hp] at hfo
  | ok df =>
    cases ht : transform_data df with
    | error e => simp [fileOutcome, hp, ht, Except.toOption] at hfo
    | ok rows2 =>
      have hr : rows2 = rows := by
        simpa [fileOutcome, hp, ht, Except.toOption] using hfo
      subst hr
      simp [processFile, hp, ht, load_data_to_postgres, hab, hnf, hadapt,
        loadedSt]

lemma loadedSt_aborted (st : St) (rows : List TRow) (key : String) (t : Int) :
    (loadedSt st rows key t).aborted = st.aborted := rfl

lemma loadedSt_metadata (st : St) (rows : List TRow) (key : String) (t : Int) :
    (loadedSt st rows key t).metadata = st.metadata := rfl

lemma processFile_presence (env : Env) (st : St) (key : String) (k : NatKey)
    (h : 1 ≤ keyCount k st.transactions) :
    1 ≤ keyCount k (processFile env st key).1.transactions := by
  cases hp : env.parse key with
  | error e => simpa [processFile, hp] using h
  | ok df =>
    cases ht : transform_data df with
    | error e => simpa [processFile, hp, ht] using h
    | ok rows =>
      simp only [processFile, hp, ht]
      unfold load_data_to_postgres
      split_ifs
      · exact h
      · exact h
      · simpa using Nat.le_trans h
          (keyCount_le_upsertAll (stampAll rows key env.now) st.transactions k)

lemma processAll_nil (env : Env) (acc : St × Nat) :
    processAll env [] acc = acc := rfl

lemma processAll_cons (env : Env) (f : SFile) (fs : List SFile) (st : St)
    (n : Nat) :
    processAll env (f :: fs) (st, n) =
      processAll env fs ((processFile env st f.key).1,
        if (processFile env st f.key).2 then n + 1 else n) := rfl

lemma processAll_metadata (env : Env) (fs : List SFile) :
    ∀ acc : St × Nat, (processAll env fs acc).1.metadata = acc.1.metadata := by
  induction fs with
  | nil => intro acc; rfl
  | cons f fs ih =>
    intro acc
    obtain ⟨st, n⟩ := acc
    rw [processAll_cons, ih]
    exact processFile_metadata env st f.key

lemma processAll_count (env : Env) (fs : List SFile) :
    ∀ (st : St) (n : Nat), st.aborted = false →
      (∀ f ∈ fs, env.loadFault f.key = false) →
      (∀ f ∈ fs, ∀ rows, fileOutcome env f.key = some rows →
        rows.all adaptable = true) →
      (processAll env fs (st, n)).1.aborted = false ∧
      (processAll env fs (st, n)).2 =
        n + fs.countP (fun f => (fileOutcome env f.key).isSome) := by
  induction fs with
  | nil =>
    intro st n hab _ _
    exact ⟨hab, by simp [processAll_nil]⟩
  | cons f fs ih =>
    intro st n hab hnf hgad
    have hnf' : ∀ g ∈ fs, env.loadFault g.key = false :=
      fun g hg => hnf g (List.mem_cons_of_mem f hg)
    have hgad' : ∀ g ∈ fs, ∀ rows, fileOutcome env g.key = some rows →
        rows.all adaptable = true :=
      fun g hg => hgad g (List.mem_cons_of_mem f hg)
    cases hfo : fileOutcome env f.key with
    | none =>
      rw [processAll_cons,
        processFile_eq_none env st f.key hfo]
      have h := ih st n hab hnf' hgad'
      refine ⟨by simpa using h.1, ?_⟩
      rw [List.countP_cons]
      simp only [hfo, Option.isSome_none]
      simp only [show ((false : Bool) = true) = False by simp, if_false]
      rw [h.2]
      omega
    | some rows =>
      rw [processAll_cons,
        processFile_eq_some env st f.key rows hab
          (hnf f (List.mem_cons_self f fs)) hfo
          (hgad f (List.mem_cons_self f fs) rows hfo)]
      have h := ih (loadedSt st rows f.key env.now) (n + 1)
        (by rw [loadedSt_aborted]; exact hab) hnf' hgad'
      refine ⟨by simpa using h.1, ?_⟩
      rw [List.countP_cons]
      simp only [hfo, Option.isSome_some]
      simp only [if_true]
      rw [h.2]
      omega

lemma processAll_presence (env : Env) (fs : List SFile) (k : NatKey) :
    ∀ acc : St × Nat, 1 ≤ keyCount k acc.1.transactions →
      1 ≤ keyCount k (processAll env fs acc).1.transactions := by
  induction fs with
  | nil => intro acc h; exact h
  | cons f fs ih =>
    intro acc h
    obtain ⟨st, n⟩ := acc
    rw [processAll_cons]
    exact ih _ (processFile_presence env st f.key k h)

lemma processAll_file_loaded (env : Env) (fs : List SFile) :
    ∀ (st : St) (n : Nat), st.aborted = false →
      (∀ g ∈ fs, env.loadFault g.key = false) →
      (∀ g ∈ fs, ∀ rows, fileOutcome env g.key = some rows →
        rows.all adaptable = true) →
      ∀ f ∈ fs, ∀ rows, fileOutcome env f.key = some rows →
        ∀ tr ∈ rows,
          1 ≤ keyCount (trKey tr) (processAll env fs (st, n)).1.transactions := by
  induction fs with
  | nil => intro st n _ _ _ f hf; cases hf
  | cons g gs ih =>
    intro st n hab hnf hgad f hf rows hrows tr htr
    have hnf' : ∀ x ∈ gs, env.loadFault x.key = false :=
      fun x hx => hnf x (List.mem_cons_of_mem g hx)
    have hgad' : ∀ x ∈ gs, ∀ rows, fileOutcome env x.key = some rows →
        rows.all adaptable = true :=
      fun x hx => hgad x (List.mem_cons_of_mem g hx)
    rw [List.mem_cons] at hf
    rcases hf with rfl | hf
    · rw [processAll_cons,
        processFile_eq_some env st f.key rows hab
          (hnf f (List.mem_cons_self f gs)) hrows
          (hgad f (List.mem_cons_self f gs) rows hrows)]
      have hpres : 1 ≤ keyCount (trKey tr)
          (loadedSt st rows f.key env.now).transactions := by
        have hmem : toDBRow tr f.key env.now ∈ stampAll rows f.key env.now :=
          List.mem_map_of_mem _ htr
        have h2 := keyCount_upsertAll_mem (stampAll rows f.key env.now)
          st.transactions _ hmem
        rw [key_toDBRow] at h2
        exact h2
      exact processAll_presence env gs (trKey tr) _ (by simpa using hpres)
    · cases hfo : fileOutcome env g.key with
      | none =>
        rw [processAll_cons, processFile_eq_none env st g.key hfo]
        exact ih st n hab hnf' hgad' f hf rows hrows tr htr
      | some rows2 =>
        rw [processAll_cons,
          processFile_eq_some env st g.key rows2 hab
            (hnf g (List.mem_cons_self g gs)) hfo
            (hgad g (List.mem_cons_self g gs) rows2 hfo)]
        exact ih (loadedSt st rows2 g.key env.now) (n + 1)
          (by rw [loadedSt_aborted]; exact hab) hnf' hgad' f hf rows hrows
          tr htr


/-! ## Lister lemmas -/

lemma listFold_eq (p : SObj → Bool) (g : SObj → SFile) (objs : List SObj) :
    ∀ acc : List SFile,
      objs.foldl (fun a o => if p o then a ++ [g o] else a) acc =
        acc ++ (objs.filter p).map g := by
  induction objs with
  | nil => intro acc; simp
  | cons o objs ih =>
    intro acc
    rw [List.foldl_cons, List.filter_cons]
    by_cases hp : p o = true
    · rw [if_pos hp, if_pos hp, ih, List.map_cons]
      rw [List.append_assoc]
      rfl
    · rw [if_neg hp, if_neg hp, ih]

/-- Closed form of `list_new_files` on a successful listing. -/
lemma list_new_files_ok (now : Int) (objs : List SObj) (ls : Option Int) :
    list_new_files now (.ok (some objs)) ls =
      .ok ((objs.filter (fun o =>
          endsWithCsv o.key &&
            decide (ls.getD (now - 24 * 60 * 60) < o.lastModified))).map
        (fun o => ⟨o.key, o.lastModified, o.size⟩)) := by
  unfold list_new_files
  dsimp only
  rw [listFold_eq]
  rw [List.nil_append]

lemma list_new_files_mem_gt {now : Int} {objs : List SObj} {w : Int}
    {res : List SFile}
    (h : list_new_files now (.ok (some objs)) (some w) = .ok res) :
    ∀ f ∈ res, w < f.last_modified := by
  rw [list_new_files_ok] at h
  have hres : res = (objs.filter (fun o =>
      endsWithCsv o.key && decide (w < o.lastModified))).map
        (fun o => ⟨o.key, o.lastModified, o.size⟩) := by
    injection h with h
    exact h.symm
  subst hres
  intro f hf
  obtain ⟨o, ho, rfl⟩ := List.mem_map.1 hf
  obtain ⟨_, hpo⟩ := List.mem_filter.1 ho
  rw [Bool.and_eq_true] at hpo
  exact of_decide_eq_true hpo.2

/-! ## Watermark-store lemmas -/

lemma get_last_sync_append_success (st : St) (t : Int) (n : Nat) :
    get_last_sync_time
        { st with metadata := st.metadata ++ [⟨t, "success", n, t⟩] } =
      some t := by
  unfold get_last_sync_time
  rw [List.filter_append]
  have hone : List.filter (fun m => decide (m.status = "success"))
      [(⟨t, "success", n, t⟩ : MetaRow)] = [⟨t, "success", n, t⟩] := by
    simp
  rw [hone, List.getLast?_concat]
  rfl

/-! ## Run equations -/

lemma run_listing_error (env : Env) (st : St)
    (h : list_new_files env.now env.store (get_last_sync_time st) =
      .error ()) :
    run env st = (st, .error ()) := by
  unfold run
  rw [h]

lemma run_listing_empty (env : Env) (st : St)
    (h : list_new_files env.now env.store (get_last_sync_time st) = .ok []) :
    run env st = (st, .ok ()) := by
  unfold run
  rw [h]
  rfl

/-- The state recorded at the end of a non-empty, non-aborted run. -/
def recordedSt (env : Env) (st : St) (files : List SFile) : St :=
  { (processAll env files (st, 0)).1 with
      metadata := (processAll env files (st, 0)).1.metadata ++
        [⟨env.recordTime, "success", (processAll env files (st, 0)).2,
          env.recordTime⟩] }

lemma run_nonempty_ok (env : Env) (st : St) (files : List SFile)
    (h : list_new_files env.now env.store (get_last_sync_time st) = .ok files)
    (hne : files ≠ [])
    (hab : (processAll env files (st, 0)).1.aborted = false) :
    run env st = (recordedSt env st files, .ok ()) := by
  unfold run
  rw [h]
  dsimp only
  rw [if_neg hne]
  unfold update_sync_metadata
  rw [hab]
  simp [recordedSt, hab]

lemma run_nonempty_aborted (env : Env) (st : St) (files : List SFile)
    (h : list_new_files env.now env.store (get_last_sync_time st) = .ok files)
    (hne : files ≠ [])
    (hab : (processAll env files (st, 0)).1.aborted = true) :
    run env st = ((processAll env files (st, 0)).1, .error ()) := by
  unfold run
  rw [h]
  dsimp only
  rw [if_neg hne]
  unfold update_sync_metadata
  rw [hab]
  rfl

/-! ## Transform lemmas -/

lemma composeAll_cons_ok {r : RawRow} {rs : List RawRow}
    {l : List (RawRow × DT)} (h : composeAll (r :: rs) = .ok l) :
    ∃ dt rest, composeDT r = .ok dt ∧ composeAll rs = .ok rest ∧
      l = (r, dt) :: rest := by
  cases hc : composeDT r with
  | error e => simp [composeAll, hc] at h
  | ok dt =>
    cases hr : composeAll rs with
    | error e => simp [composeAll, hc, hr] at h
    | ok rest =>
      refine ⟨dt, rest, rfl, rfl, ?_⟩
      simp only [composeAll, hc, hr] at h
      injection h with h
      exact h.symm

lemma composeAll_ok_props {rows : List RawRow} {l : List (RawRow × DT)}
    (h : composeAll rows = .ok l) :
    l.length = rows.length ∧
    ∀ (i : Nat) (h1 : i < rows.length) (h2 : i < l.length),
      (l.get ⟨i, h2⟩).1 = rows.get ⟨i, h1⟩ := by
  induction rows generalizing l with
  | nil =>
    have hl : l = [] := by
      simp only [composeAll] at h
      injection h with h
      exact h.symm
    subst hl
    exact ⟨rfl, fun i h1 _ => absurd h1 (Nat.not_lt_zero i)⟩
  | cons r rs ih =>
    obtain ⟨dt, rest, hc, hr, rfl⟩ := composeAll_cons_ok h
    obtain ⟨hlen, hpt⟩ := ih hr
    refine ⟨by simp [hlen], ?_⟩
    intro i h1 h2
    cases i with
    | zero => rfl
    | succ j =>
      exact hpt j (Nat.lt_of_succ_lt_succ h1) (Nat.lt_of_succ_lt_succ h2)

lemma get_map_aux {α β : Type} (f : α → β) (l : List α) :
    ∀ (i : Nat) (h1 : i < l.length) (h2 : i < (l.map f).length),
      (l.map f).get ⟨i, h2⟩ = f (l.get ⟨i, h1⟩) := by
  induction l with
  | nil => intro i h1 _; exact absurd h1 (Nat.not_lt_zero i)
  | cons a l ih =>
    intro i h1 h2
    cases i with
    | zero => rfl
    | succ j =>
      exact ih j (Nat.lt_of_succ_lt_succ h1) (Nat.lt_of_succ_lt_succ h2)

lemma transform_data_ok {df : RawDF} {out : List TRow}
    (h : transform_data df = .ok out) :
    hasDateCols df = true ∧ ∃ l, composeAll df.rows = .ok l ∧
      out = l.map (fun p => mkTRow p.1 p.2) := by
  unfold transform_data at h
  split at h
  case isFalse => cases h
  case isTrue hd =>
    refine ⟨hd, ?_⟩
    cases hc : composeAll df.rows with
    | error e => rw [hc] at h; cases h
    | ok paired =>
      rw [hc] at h
      refine ⟨paired, rfl, ?_⟩
      split_ifs at h
      injection h with h
      exact h.symm

lemma transform_data_keyError {df : RawDF} {l : List (RawRow × DT)}
    (hdate : hasDateCols df = true) (hcomp : composeAll df.rows = .ok l)
    (hmiss : df.hasOperation = false ∨ df.hasChannel = false ∨
      df.hasEntity = false ∨ df.hasTerminalId = false ∨
      df.hasCantTrx = false ∨ df.hasAmount = false) :
    ∃ c, transform_data df = .error (.keyError c) := by
  unfold transform_data
  rw [if_pos hdate, hcomp]
  split_ifs with h1 h2 h3 h4 h5 h6
  · rcases hmiss with hm | hm | hm | hm | hm | hm <;> simp_all
  all_goals exact ⟨_, rfl⟩

lemma transform_data_missing_dates {df : RawDF}
    (hdate : hasDateCols df = false) :
    transform_data df = .error .missingDateColumns := by
  unfold transform_data
  rw [hdate]
  rfl


/-! ## Concrete fixtures for witnesses and counterexamples -/

/-- A well-formed one-row DataFrame: every column present, valid date. -/
def dfGood : RawDF :=
  ⟨true, true, true, true, true, true, true, true, true, true,
    [⟨.num 2024, .num 1, .num 1, .num 0, .str "W", .str "ATM", .str "E",
      .num 7, .num 1, .num 10⟩]⟩

/-- The empty database state on a fresh connection. -/
def stEmpty : St := ⟨[], [], false⟩

/-! ## C5 -/

/-- C5: Lister contract — for every watermark (defaulting to now minus 24
hours when absent), `list_new_files` returns exactly the store's objects
whose key ends with `.csv` and whose last-modified time is strictly
greater than the watermark, and returns the empty list (not an error)
when the store reports no objects. -/
theorem C5_lister_contract (now : Int) (objs : List SObj) (ls : Option Int) :
    list_new_files now (.ok (some objs)) ls =
      .ok ((objs.filter (fun o =>
          endsWithCsv o.key &&
            decide (ls.getD (now - 24 * 60 * 60) < o.lastModified))).map
        (fun o => ⟨o.key, o.lastModified, o.size⟩)) ∧
    list_new_files now (.ok none) ls = .ok [] :=
  ⟨list_new_files_ok now objs ls, rfl⟩

/-! ## C6 -/

/-- C6: Fatal abort on listing failure — when the object-store listing
call fails, `run` raises to its caller with the state untouched, so no
file is processed, no SyncRun row is recorded, and `get_last_sync_time`
returns the same value before and after the failed run. -/
theorem C6_fatal_listing_abort (env : Env) (st : St)
    (hfail : env.store = .error ()) :
    run env st = (st, .error ()) ∧
    get_last_sync_time (run env st).1 = get_last_sync_time st := by
  have h : list_new_files env.now env.store (get_last_sync_time st) =
      .error () := by
    unfold list_new_files
    rw [hfail]
  have hr := run_listing_error env st h
  exact ⟨hr, by rw [hr]⟩

def envC6 : Env := ⟨0, 0, .error (), fun _ => .error (), fun _ => false⟩

/-- Witness for C6 at a concrete environment whose listing call fails. -/
theorem C6_fatal_listing_abort_witness :
    run envC6 stEmpty = (stEmpty, .error ()) ∧
    get_last_sync_time (run envC6 stEmpty).1 = get_last_sync_time stEmpty :=
  C6_fatal_listing_abort envC6 stEmpty rfl

/-! ## C7 -/

/-- C7: Missing-dimension default — whenever `transform_data` succeeds,
the output has exactly one record per input row (no row is dropped), and
any row whose `operation`, `channel` or `entity` cell is missing gets the
literal string `"Unknown"` in that field (the field is a total `String`,
never null). -/
theorem C7_missing_dimension_default (df : RawDF) (out : List TRow)
    (h : transform_data df = .ok out) :
    out.length = df.rows.length ∧
    ∀ (i : Nat) (h1 : i < df.rows.length) (h2 : i < out.length),
      ((df.rows.get ⟨i, h1⟩).operation = .na →
        (out.get ⟨i, h2⟩).operation = "Unknown") ∧
      ((df.rows.get ⟨i, h1⟩).channel = .na →
        (out.get ⟨i, h2⟩).channel = "Unknown") ∧
      ((df.rows.get ⟨i, h1⟩).entity = .na →
        (out.get ⟨i, h2⟩).entity = "Unknown") := by
  obtain ⟨hd, l, hc, rfl⟩ := transform_data_ok h
  obtain ⟨hlen, hpt⟩ := composeAll_ok_props hc
  constructor
  · rw [List.length_map, hlen]
  · intro i h1 h2
    have h2' : i < l.length := by
      rw [List.length_map] at h2
      exact h2
    rw [get_map_aux _ l i h2' h2]
    have hfst := hpt i h1 h2'
    refine ⟨fun hna => ?_, fun hna => ?_, fun hna => ?_⟩ <;>
      · show strOrUnknown _ = "Unknown"
        rw [hfst, hna]
        rfl

def dfC7 : RawDF :=
  ⟨true, true, true, true, true, true, true, true, true, true,
    [⟨.num 2024, .num 2, .num 3, .num 4, .na, .na, .na, .num 9, .num 2,
      .num 3⟩]⟩

def trC7 : TRow :=
  ⟨some 9, "Unknown", "Unknown", "Unknown", 2024, 2, 3, 4, 2, 3,
    ⟨2024, 2, 3, 4⟩, (2024, 2, 3), false⟩

/-- Witness for C7: a concrete row with missing operation, channel and
entity transforms to `"Unknown"` in all three fields and is not dropped. -/
theorem C7_missing_dimension_default_witness :
    transform_data dfC7 = .ok [trC7] ∧
    ([trC7].length = dfC7.rows.length ∧
    ∀ (i : Nat) (h1 : i < dfC7.rows.length) (h2 : i < [trC7].length),
      ((dfC7.rows.get ⟨i, h1⟩).operation = .na →
        ([trC7].get ⟨i, h2⟩).operation = "Unknown") ∧
      ((dfC7.rows.get ⟨i, h1⟩).channel = .na →
        ([trC7].get ⟨i, h2⟩).channel = "Unknown") ∧
      ((dfC7.rows.get ⟨i, h1⟩).entity = .na →
        ([trC7].get ⟨i, h2⟩).entity = "Unknown")) :=
  ⟨rfl, C7_missing_dimension_default dfC7 [trC7] rfl⟩

/-! ## C10 -/

/-- C10: Only the four date columns are schema-validated — a parsed
record set that has `year`, `month`, `day`, `hour` but lacks any of
`operation`, `channel`, `entity`, `terminal_id`, `cant_trx`,
`transaction_amount` never transforms successfully (the defaults are
never applied to an absent column), and whenever the date values
themselves compose, the error raised is precisely a pandas `KeyError`
for the absent column; the `"Unknown"`/`0` defaults apply only to
missing values inside present columns. -/
theorem C10_only_date_columns_validated (df : RawDF)
    (hdate : hasDateCols df = true)
    (hmiss : df.hasOperation = false ∨ df.hasChannel = false ∨
      df.hasEntity = false ∨ df.hasTerminalId = false ∨
      df.hasCantTrx = false ∨ df.hasAmount = false) :
    (∀ l, composeAll df.rows = .ok l →
      ∃ c, transform_data df = .error (.keyError c)) ∧
    ∀ out, transform_data df ≠ .ok out := by
  constructor
  · intro l hcomp
    exact transform_data_keyError hdate hcomp hmiss
  · intro out hok
    obtain ⟨_, l, hcomp, _⟩ := transform_data_ok hok
    obtain ⟨c, he⟩ := transform_data_keyError hdate hcomp hmiss
    rw [he] at hok
    cases hok

def rowC10 : RawRow :=
  ⟨.num 2024, .num 1, .num 1, .num 0, .na, .na, .na, .num 1, .num 1, .num 1⟩

def dfC10 : RawDF :=
  ⟨true, true, true, true, false, true, true, true, true, true, [rowC10]⟩

/-- Witness for C10: date columns present but `operation` absent — the
transform fails with a `KeyError` rather than defaulting. -/
theorem C10_only_date_columns_validated_witness :
    hasDateCols dfC10 = true ∧
    dfC10.hasOperation = false ∧
    ((∀ l, composeAll dfC10.rows = .ok l →
      ∃ c, transform_data dfC10 = .error (.keyError c)) ∧
    ∀ out, transform_data dfC10 ≠ .ok out) ∧
    ∃ c, transform_data dfC10 = .error (.keyError c) :=
  ⟨rfl, rfl, C10_only_date_columns_validated dfC10 rfl (Or.inl rfl),
    (C10_only_date_columns_validated dfC10 rfl (Or.inl rfl)).1
      [(rowC10, ⟨2024, 1, 1, 0⟩)] rfl⟩


/-! ## C8 -/

/-- C8: SyncRun frame — a run whose listing returns the empty file list
exits without touching the state (no SyncRun row is written); and when
the file list is non-empty and the run completes without raising, exactly
one SyncRun row is appended after the loop, even if zero files succeeded. -/
theorem C8_syncrun_frame (env : Env) (st : St) :
    (list_new_files env.now env.store (get_last_sync_time st) = .ok [] →
      run env st = (st, .ok ())) ∧
    (∀ (files : List SFile) (st' : St),
      list_new_files env.now env.store (get_last_sync_time st) = .ok files →
      files ≠ [] → run env st = (st', .ok ()) →
      ∃ n, st'.metadata =
        st.metadata ++ [⟨env.recordTime, "success", n, env.recordTime⟩]) := by
  constructor
  · exact run_listing_empty env st
  · intro files st' h hne hrun
    by_cases hab : (processAll env files (st, 0)).1.aborted = true
    · rw [run_nonempty_aborted env st files h hne hab] at hrun
      simp at hrun
    · have hab' : (processAll env files (st, 0)).1.aborted = false := by
        simpa using hab
      rw [run_nonempty_ok env st files h hne hab'] at hrun
      have hst' : recordedSt env st files = st' := congrArg Prod.fst hrun
      refine ⟨(processAll env files (st, 0)).2, ?_⟩
      rw [← hst']
      show (processAll env files (st, 0)).1.metadata ++ _ = _
      rw [processAll_metadata]

def envC8e : Env := ⟨0, 0, .ok none, fun _ => .error (), fun _ => false⟩

def envC8 : Env :=
  ⟨60, 100, .ok (some [⟨"f.csv", 50, 1⟩]), fun _ => .error (),
    fun _ => false⟩

def stC8 : St := ⟨[], [⟨100, "success", 0, 100⟩], false⟩

/-- Witness for C8: an empty listing leaves the state untouched, and a
one-file run (whose single file fails to parse) appends exactly one
SyncRun row. -/
theorem C8_syncrun_frame_witness :
    run envC8e stEmpty = (stEmpty, .ok ()) ∧
    ∃ n, stC8.metadata =
      stEmpty.metadata ++ [⟨envC8.recordTime, "success", n,
        envC8.recordTime⟩] :=
  ⟨(C8_syncrun_frame envC8e stEmpty).1 (by decide),
    (C8_syncrun_frame envC8 stEmpty).2 [⟨"f.csv", 50, 1⟩] stC8 (by decide)
      (by simp) (by decide)⟩

/-! ## C9 -/

/-- C9: Every SyncRun row the pipeline writes has status `success` (the
`failure` status is never recorded, as `run` only ever calls
`update_sync_metadata` with the Python default `'success'`), and after
every run that completes without raising and listed at least one file the
watermark returned by `get_last_sync_time` is the run's recording
timestamp, no matter how many individual files failed. -/
theorem C9_success_only_watermark (env : Env) (st st' : St)
    (res : Except Unit Unit) (hrun : run env st = (st', res)) :
    (∀ m ∈ st'.metadata, m ∈ st.metadata ∨ m.status = "success") ∧
    (res = .ok () →
      ∀ files : List SFile,
        list_new_files env.now env.store (get_last_sync_time st) =
          .ok files →
        files ≠ [] → get_last_sync_time st' = some env.recordTime) := by
  cases hl : list_new_files env.now env.store (get_last_sync_time st) with
  | error e =>
    obtain ⟨⟩ := e
    rw [run_listing_error env st hl] at hrun
    have h1 : st = st' := congrArg Prod.fst hrun
    have h2 : Except.error () = res := congrArg Prod.snd hrun
    subst h1
    refine ⟨fun m hm => Or.inl hm, fun hres => ?_⟩
    rw [← h2] at hres
    cases hres
  | ok files =>
    by_cases hne : files = []
    · subst hne
      rw [run_listing_empty env st hl] at hrun
      have h1 : st = st' := congrArg Prod.fst hrun
      subst h1
      refine ⟨fun m hm => Or.inl hm, fun _ files2 hl2 hne2 => ?_⟩
      injection hl2 with hl2
      exact absurd hl2.symm hne2
    · by_cases hab : (processAll env files (st, 0)).1.aborted = true
      · rw [run_nonempty_aborted env st files hl hne hab] at hrun
        have h1 : (processAll env files (st, 0)).1 = st' :=
          congrArg Prod.fst hrun
        have h2 : Except.error () = res := congrArg Prod.snd hrun
        constructor
        · intro m hm
          rw [← h1] at hm
          rw [processAll_metadata] at hm
          exact Or.inl hm
        · intro hres
          rw [← h2] at hres
          cases hres
      · have hab' : (processAll env files (st, 0)).1.aborted = false := by
          simpa using hab
        rw [run_nonempty_ok env st files hl hne hab'] at hrun
        have h1 : recordedSt env st files = st' := congrArg Prod.fst hrun
        constructor
        · intro m hm
          rw [← h1] at hm
          have hm2 : m ∈ (processAll env files (st, 0)).1.metadata ++
              [(⟨env.recordTime, "success", (processAll env files (st, 0)).2,
                env.recordTime⟩ : MetaRow)] := hm
          rw [List.mem_append] at hm2
          rcases hm2 with hm2 | hm2
          · rw [processAll_metadata] at hm2
            exact Or.inl hm2
          · right
            rw [List.mem_singleton] at hm2
            rw [hm2]
          
        · intro _ files2 _ _
          rw [← h1]
          exact get_last_sync_append_success _ _ _

/-- Witness for C9 at a concrete run: the recorded row has status
`success` and the watermark equals the recording timestamp. -/
theorem C9_success_only_watermark_witness :
    (∀ m ∈ stC8.metadata, m ∈ stEmpty.metadata ∨ m.status = "success") ∧
    ((Except.ok () : Except Unit Unit) = .ok () →
      ∀ files : List SFile,
        list_new_files envC8.now envC8.store (get_last_sync_time stEmpty) =
          .ok files →
        files ≠ [] → get_last_sync_time stC8 = some envC8.recordTime) :=
  C9_success_only_watermark envC8 stEmpty stC8 (.ok ()) (by decide)

/-! ## C4 -/

def envC4 : Env :=
  ⟨60, 100, .ok (some [⟨"f.csv", 50, 1⟩]), fun _ => .error (),
    fun _ => false⟩

def stC4 : St := ⟨[], [⟨10, "success", 0, 10⟩], false⟩

def stC4' : St :=
  ⟨[], [⟨10, "success", 0, 10⟩, ⟨100, "success", 0, 100⟩], false⟩

/-- C4 counterexample: a run starting from watermark 10 lists `f.csv`
(modified at 50), the file fails (parse error), yet the run records
watermark 100 (the recording time); the next run's listing with that
watermark excludes the failed file even though its modification time is
well inside the 24-hour lookback window — so the failed file is NOT
retried, contradicting the claim. -/
theorem C4_retry_counterexample :
    run envC4 stC4 = (stC4', .ok ()) ∧
    get_last_sync_time stC4' = some 100 ∧
    list_new_files 120 (.ok (some [⟨"f.csv", 50, 1⟩]))
      (get_last_sync_time stC4') = .ok [] ∧
    ((120 : Int) - 24 * 60 * 60 < 50) :=
  ⟨by decide, by decide, by decide, by decide⟩

/-- C4 amended: the watermark recorded at the end of a completed run with
a non-empty listing is the recording timestamp itself (not the failed
file's position), and a subsequent listing against that watermark returns
only files whose modification time is strictly greater than that
recording timestamp — hence a failed file is listed again only if it is
modified after the recorded watermark, not merely by staying inside the
lookback window. -/
theorem C4_watermark_amended (env : Env) (st st' : St) (files : List SFile)
    (hlist : list_new_files env.now env.store (get_last_sync_time st) =
      .ok files)
    (hne : files ≠ [])
    (hrun : run env st = (st', .ok ())) :
    get_last_sync_time st' = some env.recordTime ∧
    ∀ (now2 : Int) (objs2 : List SObj) (res : List SFile),
      list_new_files now2 (.ok (some objs2)) (get_last_sync_time st') =
        .ok res →
      ∀ f ∈ res, env.recordTime < f.last_modified := by
  by_cases hab : (processAll env files (st, 0)).1.aborted = true
  · rw [run_nonempty_aborted env st files hlist hne hab] at hrun
    simp at hrun
  · have hab' : (processAll env files (st, 0)).1.aborted = false := by
      simpa using hab
    rw [run_nonempty_ok env st files hlist hne hab'] at hrun
    have hst' : recordedSt env st files = st' := congrArg Prod.fst hrun
    have hgl : get_last_sync_time st' = some env.recordTime := by
      rw [← hst']
      exact get_last_sync_append_success _ _ _
    refine ⟨hgl, ?_⟩
    intro now2 objs2 res hres
    rw [hgl] at hres
    exact list_new_files_mem_gt hres

/-- Witness for C4's amended statement at the counterexample's run. -/
theorem C4_watermark_amended_witness :
    get_last_sync_time stC4' = some envC4.recordTime ∧
    ∀ (now2 : Int) (objs2 : List SObj) (res : List SFile),
      list_new_files now2 (.ok (some objs2)) (get_last_sync_time stC4') =
        .ok res →
      ∀ f ∈ res, envC4.recordTime < f.last_modified :=
  C4_watermark_amended envC4 stC4 stC4' [⟨"f.csv", 50, 1⟩] (by decide)
    (by simp) (by decide)


/-! ## C2 -/

/-- A DataFrame whose `year` column is absent: `transform_data` raises
the missing-date-columns `ValueError` on it. -/
def dfBad : RawDF :=
  ⟨false, true, true, true, true, true, true, true, true, true, []⟩

/-- A well-formed DataFrame (all columns present, valid date values)
whose `terminal_id` cell is non-numeric: it parses and transforms fine,
but its batch INSERT raises (NaN terminal into the INTEGER column). -/
def dfNaNTerm : RawDF :=
  ⟨true, true, true, true, true, true, true, true, true, true,
    [⟨.num 2024, .num 1, .num 1, .num 0, .str "W", .str "ATM", .str "E",
      .na, .num 1, .num 2⟩]⟩

def envC2x : Env :=
  ⟨200000, 300000,
    .ok (some [⟨"g.csv", 150000, 5⟩, ⟨"bad.csv", 150001, 5⟩]),
    fun s => if s = "bad.csv" then .ok dfBad else .ok dfNaNTerm,
    fun _ => false⟩

/-- C2 counterexample: two listed files of which exactly one (`bad.csv`)
is malformed in the claim's sense (missing a required date column).  The
other file `g.csv` parses and transforms successfully, but its record
has a non-numeric `terminal_id` cell: psycopg2 adapts the NaN as a
float8 literal, the INSERT into the INTEGER column raises, and — with no
rollback issued — the aborted transaction makes the final metadata
INSERT raise as well.  So `run` raises to the caller and records no
SyncRun row, instead of completing with `files_processed = N - 1 = 1`
and `g.csv`'s record present. -/
theorem C2_nan_terminal_counterexample :
    envC2x.parse "bad.csv" = .ok dfBad ∧ hasDateCols dfBad = false ∧
    envC2x.parse "g.csv" = .ok dfNaNTerm ∧
    (fileOutcome envC2x "g.csv").isSome = true ∧
    (∀ s, envC2x.loadFault s = false) ∧
    run envC2x stEmpty = (⟨[], [], true⟩, .error ()) :=
  ⟨by decide, rfl, by decide, by decide, fun s => rfl, by decide⟩

/-- C2 amended: per-file failure isolation additionally requires the
other files' records to be insertable.  With `pre.length + 1 +
post.length` listed files of which exactly one (`bad`) parses to a
record set missing a required date column, every other file parsing and
transforming successfully into records with a numeric (non-null)
`terminal_id` and no numeric dimension cell — otherwise that file's own
INSERT raises and, never rolled back, aborts the whole run, see the
counterexample — and no database fault, `run` completes without raising,
records `files_processed = N - 1 = pre.length + post.length` in the
SyncRun row, and every record of the other files is present (by natural
key) in the destination table. -/
theorem C2_per_file_isolation_amended (env : Env) (st : St)
    (pre post : List SFile) (bad : SFile) (dfb : RawDF)
    (hab : st.aborted = false)
    (hlist : list_new_files env.now env.store (get_last_sync_time st) =
      .ok (pre ++ bad :: post))
    (hparseb : env.parse bad.key = .ok dfb)
    (hbadcols : hasDateCols dfb = false)
    (hgood : ∀ f ∈ pre ++ post, (fileOutcome env f.key).isSome = true)
    (hinsertable : ∀ f ∈ pre ++ post,
      ((fileOutcome env f.key).getD []).all adaptable = true)
    (hnofault : ∀ s, env.loadFault s = false) :
    ∃ st', run env st = (st', .ok ()) ∧
      st'.metadata = st.metadata ++
        [⟨env.recordTime, "success", pre.length + post.length,
          env.recordTime⟩] ∧
      ∀ f ∈ pre ++ post, ∀ rows, fileOutcome env f.key = some rows →
        ∀ tr ∈ rows, 1 ≤ keyCount (trKey tr) st'.transactions := by
  have hbadout : fileOutcome env bad.key = none := by
    unfold fileOutcome
    rw [hparseb]
    dsimp only
    rw [transform_data_missing_dates hbadcols]
    rfl
  have hne : pre ++ bad :: post ≠ [] := by simp
  have hnf : ∀ f ∈ pre ++ bad :: post, env.loadFault f.key = false :=
    fun f _ => hnofault f.key
  have hgad : ∀ f ∈ pre ++ bad :: post, ∀ rows,
      fileOutcome env f.key = some rows → rows.all adaptable = true := by
    intro f hf rows hrows
    rcases List.mem_append.1 hf with h | h
    · have h2 := hinsertable f (List.mem_append_left post h)
      rw [hrows] at h2
      simpa using h2
    · rcases List.mem_cons.1 h with rfl | h
      · rw [hbadout] at hrows
        cases hrows
      · have h2 := hinsertable f (List.mem_append_right pre h)
        rw [hrows] at h2
        simpa using h2
  have hcount := processAll_count env (pre ++ bad :: post) st 0 hab hnf hgad
  have hrun := run_nonempty_ok env st (pre ++ bad :: post) hlist hne hcount.1
  refine ⟨recordedSt env st (pre ++ bad :: post), hrun, ?_, ?_⟩
  · have hn : (processAll env (pre ++ bad :: post) (st, 0)).2 =
        pre.length + post.length := by
      rw [hcount.2, List.countP_append, List.countP_cons]
      have hpre : pre.countP (fun f => (fileOutcome env f.key).isSome) =
          pre.length :=
        List.countP_eq_length.2
          (fun f hf => hgood f (List.mem_append_left post hf))
      have hpost : post.countP (fun f => (fileOutcome env f.key).isSome) =
          post.length :=
        List.countP_eq_length.2
          (fun f hf => hgood f (List.mem_append_right pre hf))
      rw [hpre, hpost, hbadout]
      simp
    show (processAll env (pre ++ bad :: post) (st, 0)).1.metadata ++ _ = _
    rw [processAll_metadata, hn]
  · intro f hf rows hrows tr htr
    have hfmem : f ∈ pre ++ bad :: post := by
      rcases List.mem_append.1 hf with h | h
      · exact List.mem_append_left _ h
      · exact List.mem_append_right _ (List.mem_cons_of_mem bad h)
    exact processAll_file_loaded env (pre ++ bad :: post) st 0 hab hnf hgad
      f hfmem rows hrows tr htr

def aFile : SFile := ⟨"a.csv", 150000, 5⟩

def bFile : SFile := ⟨"b.csv", 150001, 5⟩

def envC2 : Env :=
  ⟨200000, 300000, .ok (some [⟨"a.csv", 150000, 5⟩, ⟨"b.csv", 150001, 5⟩]),
    fun s => if s = "b.csv" then .ok dfBad else .ok dfGood,
    fun _ => false⟩

/-- Witness for C2's amended statement: two listed files of which
`b.csv` is malformed and `a.csv` is fully insertable — the run succeeds,
records `files_processed = 1`, and `a.csv`'s record is in the table. -/
theorem C2_per_file_isolation_amended_witness :
    hasDateCols dfBad = false ∧
    (∀ f ∈ [aFile] ++ ([] : List SFile),
      (fileOutcome envC2 f.key).isSome = true) ∧
    (∀ f ∈ [aFile] ++ ([] : List SFile),
      ((fileOutcome envC2 f.key).getD []).all adaptable = true) ∧
    (∃ st', run envC2 stEmpty = (st', .ok ()) ∧
      st'.metadata = stEmpty.metadata ++
        [⟨envC2.recordTime, "success",
          [aFile].length + List.length ([] : List SFile),
          envC2.recordTime⟩] ∧
      ∀ f ∈ [aFile] ++ ([] : List SFile), ∀ rows,
        fileOutcome envC2 f.key = some rows →
        ∀ tr ∈ rows, 1 ≤ keyCount (trKey tr) st'.transactions) :=
  ⟨rfl, by decide, by decide,
    C2_per_file_isolation_amended envC2 stEmpty [aFile] [] bFile dfBad rfl
      (by decide) (by decide) rfl (by decide) (by decide) (fun s => rfl)⟩

/-! ## C1 -/

/-- A parsed row whose `terminal_id` cell is missing: the transform
leaves the coerced `terminal_id` null, as the source does for any
non-numeric value. -/
def dfNullTerminal : RawDF :=
  ⟨true, true, true, true, true, true, true, true, true, true,
    [⟨.num 2024, .num 1, .num 1, .num 0, .str "W", .str "ATM", .na, .na,
      .num 5, .num 7⟩]⟩

def trNull : TRow :=
  ⟨none, "W", "ATM", "Unknown", 2024, 1, 1, 0, 5, 7, ⟨2024, 1, 1, 0⟩,
    (2024, 1, 1), false⟩

/-- C1 counterexample: a transformed record set containing a record with
null `terminal_id` (the transform's own output on a non-numeric terminal
cell) cannot be upserted at all: psycopg2 renders the pandas NaN as a
float8 literal — never as SQL NULL — and the INSERT into the INTEGER
`terminal_id` column raises, so the batch commits nothing, the
connection's transaction is left aborted, and loading the set twice
leaves ZERO rows for the record's natural key — refuting "exactly one
row per natural key" for every transformed record set. -/
theorem C1_null_terminal_counterexample :
    transform_data dfNullTerminal = .ok [trNull] ∧
    adaptable trNull = false ∧
    load_data_to_postgres [trNull] "f1" 1 false stEmpty =
      (⟨[], [], true⟩, false) ∧
    keyCount (trKey trNull)
      ((load_data_to_postgres [trNull] "f2" 2 false
        (load_data_to_postgres [trNull] "f1" 1 false
          stEmpty).1).1.transactions) = 0 :=
  ⟨by decide, rfl, by decide, by decide⟩

lemma adaptable_isSome {tr : TRow} (h : adaptable tr = true) :
    tr.terminal_id.isSome = true := by
  unfold adaptable at h
  rw [Bool.and_eq_true] at h
  exact h.1

lemma load_ok (rows : List TRow) (f : String) (t : Int) {st : St}
    (hab : st.aborted = false) (had : rows.all adaptable = true) :
    load_data_to_postgres rows f t false st = (loadedSt st rows f t, true) := by
  unfold load_data_to_postgres loadedSt
  rw [hab, had]
  rfl

/-- C1 amended: restricted to transformed record sets whose records are
all insertable — non-null coerced `terminal_id` and no numeric dimension
cell, the restriction the counterexample forces — loading the set twice
into a table satisfying the unique constraint produces exactly one row
per natural key, with the mutable fields (`cant_trx`,
`transaction_amount`, `entity`, `source_file`, `loaded_at`) reflecting
the second load's values — taken from the last record with that key,
however many times it appears — and the identifying fields
(`terminal_id`, `transaction_datetime`, `operation`, `channel`)
unchanged.  A set containing a null-terminal record instead fails its
batch INSERT outright and stores nothing. -/
theorem C1_idempotent_upsert_amended (trows : List TRow) (f1 f2 : String)
    (t1 t2 : Int) (st0 : St)
    (hadapt : ∀ tr ∈ trows, adaptable tr = true)
    (hT0 : KeyUnique st0.transactions)
    (hab : st0.aborted = false) :
    ∃ st1 st2,
      load_data_to_postgres trows f1 t1 false st0 = (st1, true) ∧
      load_data_to_postgres trows f2 t2 false st1 = (st2, true) ∧
      ∀ tr ∈ trows,
        keyCount (trKey tr) st2.transactions = 1 ∧
        ∃ n, (trows.filter
            (fun x => decide (trKey x = trKey tr))).getLast? = some n ∧
          ∀ r ∈ st2.transactions, r.key = trKey tr →
            r.cant_trx = n.cant_trx ∧
            r.transaction_amount = n.transaction_amount ∧
            r.entity = n.entity ∧ r.source_file = f2 ∧ r.loaded_at = t2 ∧
            r.terminal_id = tr.terminal_id ∧
            r.transaction_datetime = tr.transaction_datetime ∧
            r.operation = tr.operation ∧ r.channel = tr.channel := by
  have hsome : ∀ tr ∈ trows, tr.terminal_id.isSome = true :=
    fun tr htr => adaptable_isSome (hadapt tr htr)
  have had : trows.all adaptable = true := List.all_eq_true.2 hadapt
  have hab1 : (loadedSt st0 trows f1 t1).aborted = false := by
    rw [loadedSt_aborted]
    exact hab
  refine ⟨loadedSt st0 trows f1 t1,
    loadedSt (loadedSt st0 trows f1 t1) trows f2 t2,
    load_ok trows f1 t1 hab had, load_ok trows f2 t2 hab1 had, ?_⟩
  intro tr htr
  have hT1 : KeyUnique (loadedSt st0 trows f1 t1).transactions :=
    keyUnique_upsertAll _ hT0
  constructor
  · have h1 := keyCount_upsertAll_eq_one (stampAll trows f2 t2) hT1
      (List.mem_map_of_mem _ htr) (hsome tr htr)
    rwa [key_toDBRow] at h1
  · have hfne : trows.filter (fun x => decide (trKey x = trKey tr)) ≠ [] := by
      intro hnil
      have h2 := List.filter_eq_nil_iff.1 hnil tr htr
      simp at h2
    obtain ⟨n, hn⟩ := Option.isSome_iff_exists.1 (List.getLast?_isSome.2 hfne)
    refine ⟨n, hn, ?_⟩
    intro r hr hrk
    have hlast2 : ((stampAll trows f2 t2).filter
        (fun m => decide (m.key = trKey tr))).getLast? =
        some (toDBRow n f2 t2) := by
      rw [stampAll_filter_key]
      unfold stampAll
      rw [getLast?_map_eq, hn]
      rfl
    have hmut := mutOf_upsertAll (stampAll trows f2 t2)
      (stampAll_terminal_isSome hsome) hlast2 r hr hrk
    rw [mutOf_toDBRow] at hmut
    simp only [mutOf, Prod.mk.injEq] at hmut
    simp only [DBRow.key, trKey, Prod.mk.injEq] at hrk
    exact ⟨hmut.1, hmut.2.1, hmut.2.2.1, hmut.2.2.2.1, hmut.2.2.2.2,
      hrk.1, hrk.2.1, hrk.2.2.1, hrk.2.2.2⟩

def trK1 : TRow :=
  ⟨some 7, "W", "ATM", "E1", 2024, 1, 1, 0, 1, 10, ⟨2024, 1, 1, 0⟩,
    (2024, 1, 1), false⟩

def trK2 : TRow :=
  ⟨some 7, "W", "ATM", "E2", 2024, 1, 1, 0, 2, 20, ⟨2024, 1, 1, 0⟩,
    (2024, 1, 1), false⟩

/-- Witness for C1's amended statement: two insertable records sharing
the natural key, loaded twice into the empty table. -/
theorem C1_idempotent_upsert_amended_witness :
    (∀ tr ∈ [trK1, trK2], adaptable tr = true) ∧
    (∃ st1 st2,
      load_data_to_postgres [trK1, trK2] "f1" 1 false stEmpty = (st1, true) ∧
      load_data_to_postgres [trK1, trK2] "f2" 2 false st1 = (st2, true) ∧
      ∀ tr ∈ [trK1, trK2],
        keyCount (trKey tr) st2.transactions = 1 ∧
        ∃ n, ([trK1, trK2].filter
            (fun x => decide (trKey x = trKey tr))).getLast? = some n ∧
          ∀ r ∈ st2.transactions, r.key = trKey tr →
            r.cant_trx = n.cant_trx ∧
            r.transaction_amount = n.transaction_amount ∧
            r.entity = n.entity ∧ r.source_file = "f2" ∧ r.loaded_at = 2 ∧
            r.terminal_id = tr.terminal_id ∧
            r.transaction_datetime = tr.transaction_datetime ∧
            r.operation = tr.operation ∧ r.channel = tr.channel) :=
  ⟨by decide, C1_idempotent_upsert_amended [trK1, trK2] "f1" "f2" 1 2
    stEmpty (by decide) (fun k _ => Nat.zero_le 1) rfl⟩

/-! ## C3 -/

def envC3 : Env :=
  ⟨200000, 300000,
    .ok (some [⟨"a.csv", 150000, 10⟩, ⟨"b.csv", 150001, 10⟩]),
    fun _ => .ok dfGood, fun s => decide (s = "a.csv")⟩

/-- C3 (code bug, evaluated at the failing input): two well-formed files
are listed and `a.csv`'s upsert batch hits a database failure during
`execute_batch`.  Because the code never issues a rollback, the
connection's transaction stays aborted: `b.csv`'s load fails too
(`InFailedSqlTransaction`), the final metadata insert raises, `run`
raises to its caller, no SyncRun row is recorded, and `b.csv`'s records
are absent from the table — whereas the claim expects
rollback-log-continue with `b.csv` loaded normally, exactly one SyncRun
row, and no exception. -/
theorem C3_load_error_aborts_run :
    run envC3 stEmpty = (⟨[], [], true⟩, .error ()) ∧
    get_last_sync_time (run envC3 stEmpty).1 = none :=
  ⟨by decide, by decide⟩

end KasnetETL
